import Mathlib

/-!
Shallow embedding of the rule-based core of the Caregiver-Handoff app
(src/app.py): the red-flag matcher `find_red_flags`, the suggestion
generator `generate_support_suggestions`, and the note formatter
`format_log_entry`, together with theorems settling the specification
claims about them.

Modelling notes.
Every pattern in the two rule tables has the shape `\b(alt1|alt2|...)\b`
where each alternative is a literal word or phrase (the one nested group,
`hit (his|her|their) head`, is expanded into its three literal phrases).
Such a pattern matches a text under `re.search(..., re.IGNORECASE)` iff
some alternative occurs in the text at a position where the character
just before (if any) and the character just after (if any) are non-word
characters.  A pattern is therefore embedded as its list of literal
alternatives, and the search as a boundary-aware substring scan over the
lower-cased text.  Word characters are modelled as ASCII alphanumerics
plus underscore, and case folding as ASCII case folding, which agree
with Python on every character occurring in the rule tables.  Python
string comparison, used by `sorted`, is lexicographic on code points and
is embedded as `strLe`.  `datetime.now().strftime("%Y-%m-%d %H:%M")` in
`format_log_entry` is modelled by passing the rendered timestamp as an
extra argument `now`.
-/

namespace CaregiverApp

set_option maxRecDepth 40000

/-- Word characters for the regex word boundary: ASCII letters, digits
and underscore. -/
def isWordChar (c : Char) : Bool :=
  c.isAlphanum || c = '_'

/-- Python whitespace, the character class stripped by `str.strip()`. -/
def pyIsSpace (c : Char) : Bool :=
  c = ' ' || c = '\t' || c = '\n' || c = '\r' || c.val = 11 || c.val = 12 ||
  c.val = 0x1c || c.val = 0x1d || c.val = 0x1e || c.val = 0x1f ||
  c.val = 0x85 || c.val = 0xa0 || c.val = 0x1680 ||
  (0x2000 ≤ c.val && c.val ≤ 0x200a) ||
  c.val = 0x2028 || c.val = 0x2029 || c.val = 0x202f ||
  c.val = 0x205f || c.val = 0x3000

/-- A word boundary holds before the match start when there is no
previous character or the previous character is a non-word character. -/
def boundaryOk : Option Char → Bool
  | none => true
  | some c => !(isWordChar c)

/-- `phraseAt p t` holds when `p` is a prefix of `t` and the character
of `t` right after that prefix, if any, is a non-word character (the
closing word boundary). -/
def phraseAt : List Char → List Char → Bool
  | [], [] => true
  | [], c :: _ => !(isWordChar c)
  | _ :: _, [] => false
  | a :: p, b :: t => a == b && phraseAt p t

/-- Scan of the text for a phrase flanked by word boundaries; `prev` is
the character just before the current position, if any. -/
def searchAux (p : List Char) : Option Char → List Char → Bool
  | prev, [] => boundaryOk prev && phraseAt p []
  | prev, c :: t => (boundaryOk prev && phraseAt p (c :: t)) || searchAux p (some c) t

/-- ASCII case folding of a string, as a character list. -/
def lowerData (s : String) : List Char :=
  s.data.map Char.toLower

/-- `re.search(pattern, text, flags=re.IGNORECASE)` viewed as a Bool,
for a pattern of the shape `\b(alt1|...|altn)\b` given by its list of
literal alternatives: some alternative occurs in the case-folded text
flanked by word boundaries. -/
def patternSearch (alts : List String) (text : String) : Bool :=
  alts.any fun a => searchAux (lowerData a) none (lowerData text)

/-- Python string comparison on character lists: lexicographic by code
point. -/
def charListLe : List Char → List Char → Bool
  | [], _ => true
  | _ :: _, [] => false
  | a :: s, b :: t =>
    if a < b then true
    else if b < a then false
    else charListLe s t

/-- Python string comparison `a <= b`: lexicographic by code point,
the order used by `sorted`. -/
def strLe (a b : String) : Bool :=
  charListLe a.data b.data

/-- The `RED_FLAGS` table of src/app.py: each regex replaced by the list
of its literal alternatives (the nested group of the head-injury rule is
expanded), paired with its label. -/
def RED_FLAGS : List (List String × String) :=
  [(["can\x27t breathe", "cannot breathe", "trouble breathing",
     "difficulty breathing", "shortness of breath", "blue lips",
     "turning blue"], "Breathing trouble"),
   (["unconscious", "not waking", "won\x27t wake", "passed out",
     "fainted"], "Unresponsive / fainting"),
   (["seizure", "convulsion", "fit"], "Seizure"),
   (["face droop", "slurred speech", "can\x27t speak",
     "weakness on one side", "one-sided weakness", "sudden numbness"],
    "Possible stroke signs"),
   (["chest pain", "pressure in chest", "tightness in chest"],
    "Chest pain/pressure"),
   (["heavy bleeding", "won\x27t stop bleeding", "bleeding won\x27t stop"],
    "Uncontrolled bleeding"),
   (["head injury", "hit his head", "hit her head", "hit their head",
     "concussion"], "Head injury"),
   (["suicide", "kill myself", "self harm", "hurt myself"],
    "Self-harm risk")]

/-- The suggestion string of the confusion rule of `SUGGESTION_RULES`. -/
def confusion_suggestion : String :=
  "Confusion can have many causes. Consider checking for recent changes (sleep, hydration, stress, new routines). If sudden or severe, contact a clinician."

/-- The suggestion string of the fall rule of `SUGGESTION_RULES`. -/
def fall_suggestion : String :=
  "After a fall, watch for pain, dizziness, confusion, or head injury signs. If there’s severe pain, head impact, or worsening symptoms, seek urgent care."

/-- The `SUGGESTION_RULES` table of src/app.py, in declaration order:
confusion, fever, fall, vomiting, dehydration, agitation, pain. -/
def SUGGESTION_RULES : List (List String × String) :=
  [(["confused", "confusion", "disoriented"], confusion_suggestion),
   (["fever", "high temperature"],
    "Fever can be a sign of infection. If fever is high, persistent, or with worsening symptoms, contact a clinician."),
   (["fall", "fell", "slipped"], fall_suggestion),
   (["vomiting", "throwing up"],
    "If vomiting is persistent, there are signs of dehydration, or blood appears, contact urgent care/clinician."),
   (["dehydrated", "dehydration", "not drinking"],
    "Encourage small, frequent sips of water if safe. If the person can’t keep fluids down or seems very weak, contact a clinician."),
   (["agitated", "anxious", "panic"],
    "Try a calm environment, slow breathing, reassurance, and reduce noise. If agitation is severe or unsafe, seek professional help."),
   (["pain"],
    "Track pain location, severity (0–10), start time, and what worsens/relieves it. If severe or sudden, contact a clinician.")]

/-- `find_red_flags` of src/app.py: collect the label of every red-flag
rule whose pattern matches, then `sorted(set(hits))`, Python sorting
being lexicographic by code point. -/
def find_red_flags (text : String) : List String :=
  List.insertionSort (fun a b => strLe a b = true)
    (((RED_FLAGS.filter fun r => patternSearch r.1 text).map Prod.snd).dedup)

/-- The fallback suggestion appended by `generate_support_suggestions`
when no rule matches. -/
def fallback_suggestion : String :=
  "Consider logging what you observe (when it started, what changed, what helps). If symptoms worsen or feel concerning, contact a clinician."

/-- `generate_support_suggestions` of src/app.py: the suggestion of every
matching rule in declaration order, or the single fallback string when
none matches. -/
def generate_support_suggestions (text : String) : List String :=
  let suggestions := (SUGGESTION_RULES.filter fun r => patternSearch r.1 text).map Prod.snd
  if suggestions = [] then [fallback_suggestion] else suggestions

/-- Python `str.strip()`: remove leading and trailing whitespace. -/
def pyStrip (s : String) : String :=
  ⟨((s.data.dropWhile pyIsSpace).reverse.dropWhile pyIsSpace).reverse⟩

/-- `format_log_entry` of src/app.py.  The f-string is rendered by
string concatenation; Python truthiness of a string is non-emptiness, so
`x or "N/A"` becomes an `if x = ""` test, and likewise for the
conditional expressions on the two free-text fields.  The timestamp
`datetime.now().strftime("%Y-%m-%d %H:%M")` is passed in as `now`. -/
def format_log_entry (person_name relationship concern_text : String)
    (severity : Int) (notes now : String) : String :=
  "## Care Log Entry (" ++ (now ++ (")\n\n**Person:** " ++
    ((if person_name = "" then "N/A" else person_name) ++ ("  \n**Relationship:** " ++
      ((if relationship = "" then "N/A" else relationship) ++
        ("  \n**Severity (caregiver-rated):** " ++ (toString severity ++ ("/10  \n\n" ++
          ("### What I observed\n" ++
            ((if concern_text = "" then "N/A" else pyStrip concern_text) ++ ("\n" ++ ("\n" ++
              ("### Extra notes\n" ++
                ((if notes = "" then "N/A" else pyStrip notes) ++ "\n"))))))))))))))

/-! ## Helper lemmas -/

/-- Unfolding of `generate_support_suggestions` without the local
binding. -/
theorem gss_eq (text : String) :
    generate_support_suggestions text =
      if ((SUGGESTION_RULES.filter fun r => patternSearch r.1 text).map Prod.snd) = []
      then [fallback_suggestion]
      else (SUGGESTION_RULES.filter fun r => patternSearch r.1 text).map Prod.snd := rfl

/-- The Boolean code-point comparison agrees with the negation of the
lexicographic strict order on character lists. -/
theorem charListLe_iff_not_lt (s t : List Char) : charListLe s t = true ↔ ¬ t < s := by
  induction s generalizing t with
  | nil =>
    cases t with
    | nil => exact iff_of_true rfl nofun
    | cons b t => exact iff_of_true rfl nofun
  | cons a s ih =>
    cases t with
    | nil =>
      exact iff_of_false (by simp [charListLe]) (fun hn => hn List.Lex.nil)
    | cons b t =>
      rcases lt_trichotomy a b with hab | heq | hba
      · have htrue : charListLe (a :: s) (b :: t) = true := by
          simp only [charListLe]
          rw [if_pos hab]
        refine iff_of_true htrue ?_
        intro hlt
        cases hlt with
        | cons h3 => exact absurd hab (lt_irrefl _)
        | rel h1 => exact absurd h1 (lt_asymm hab)
      · subst heq
        have hstep : charListLe (a :: s) (a :: t) = charListLe s t := by
          simp only [charListLe]
          rw [if_neg (lt_irrefl a), if_neg (lt_irrefl a)]
        rw [hstep, ih t]
        constructor
        · intro hns hlt
          cases hlt with
          | cons h3 => exact hns h3
          | rel h1 => exact absurd h1 (lt_irrefl a)
        · intro hns hlt
          exact hns (List.Lex.cons hlt)
      · have hfalse : charListLe (a :: s) (b :: t) = false := by
          simp only [charListLe]
          rw [if_neg (lt_asymm hba), if_pos hba]
        refine iff_of_false (by simp [hfalse]) fun hn => hn (List.Lex.rel hba)

/-- The Boolean comparison used by the embedded sort agrees with the
linear order on strings. -/
theorem strLe_iff (a b : String) : strLe a b = true ↔ a ≤ b := by
  rw [strLe, charListLe_iff_not_lt, String.le_iff_toList_le]
  exact not_lt

instance : IsTotal String (fun a b => strLe a b = true) :=
  ⟨fun a b => by rw [strLe_iff, strLe_iff]; exact le_total a b⟩

instance : IsTrans String (fun a b => strLe a b = true) :=
  ⟨fun a b c hab hbc => by
    rw [strLe_iff] at hab hbc ⊢
    exact le_trans hab hbc⟩

/-- A phrase accepted by `phraseAt` is a prefix of the text. -/
theorem phraseAt_prefixOf : ∀ (p t : List Char), phraseAt p t = true → p <+: t
  | [], _, _ => List.nil_prefix
  | _ :: _, [], h => by simp [phraseAt] at h
  | a :: p, b :: t, h => by
    simp only [phraseAt, Bool.and_eq_true, beq_iff_eq] at h
    obtain ⟨rfl, h2⟩ := h
    exact List.cons_prefix_cons.mpr ⟨rfl, phraseAt_prefixOf p t h2⟩

/-- A phrase found by the boundary-aware scan occurs in the text. -/
theorem searchAux_infixOf :
    ∀ (p : List Char) (prev : Option Char) (t : List Char),
      searchAux p prev t = true → p <:+: t
  | p, prev, [], h => by
    simp only [searchAux, Bool.and_eq_true] at h
    exact (phraseAt_prefixOf p [] h.2).isInfix
  | p, prev, c :: t, h => by
    simp only [searchAux, Bool.or_eq_true, Bool.and_eq_true] at h
    rcases h with ⟨_, h2⟩ | h2
    · exact (phraseAt_prefixOf p (c :: t) h2).isInfix
    · exact (searchAux_infixOf p (some c) t h2).trans (List.suffix_cons c t).isInfix

/-- The first element surviving `dropWhile` does not satisfy the
predicate. -/
theorem dropWhile_head_false {α : Type} (p : α → Bool) :
    ∀ (l : List α) (a : α) (t : List α), l.dropWhile p = a :: t → p a = false := by
  intro l
  induction l with
  | nil => intro a t h; simp at h
  | cons x xs ih =>
    intro a t h
    rw [List.dropWhile_cons] at h
    by_cases hp : p x = true
    · rw [if_pos hp] at h
      exact ih a t h
    · rw [if_neg hp] at h
      cases h
      exact eq_false_of_ne_true hp

/-- Decomposition produced by `pyStrip`: the original string is a
whitespace prefix, the stripped core, and a whitespace suffix. -/
theorem pyStrip_decomp (s : String) :
    ∃ pre post : List Char,
      (∀ c ∈ pre, pyIsSpace c = true) ∧ (∀ c ∈ post, pyIsSpace c = true) ∧
      s.data = pre ++ (pyStrip s).data ++ post := by
  refine ⟨s.data.takeWhile pyIsSpace,
    ((s.data.dropWhile pyIsSpace).reverse.takeWhile pyIsSpace).reverse, ?_, ?_, ?_⟩
  · intro c hc
    exact List.mem_takeWhile_imp hc
  · intro c hc
    rw [List.mem_reverse] at hc
    exact List.mem_takeWhile_imp hc
  · conv_lhs => rw [← List.takeWhile_append_dropWhile pyIsSpace s.data]
    rw [List.append_assoc]
    congr 1
    conv_lhs =>
      rw [← List.reverse_reverse (s.data.dropWhile pyIsSpace),
        ← List.takeWhile_append_dropWhile pyIsSpace (s.data.dropWhile pyIsSpace).reverse,
        List.reverse_append]
    rfl

/-- The stripped string does not start with whitespace. -/
theorem pyStrip_head_not_space (s : String) :
    ∀ c, (pyStrip s).data.head? = some c → pyIsSpace c = false := by
  intro c hc
  simp only [pyStrip, List.head?_reverse] at hc
  rcases he : (s.data.dropWhile pyIsSpace).reverse.dropWhile pyIsSpace with _ | ⟨a, t⟩
  · rw [he] at hc
    simp at hc
  · rw [he] at hc
    have hsuffix : (s.data.dropWhile pyIsSpace).reverse =
        (s.data.dropWhile pyIsSpace).reverse.takeWhile pyIsSpace ++ (a :: t) := by
      rw [← he, List.takeWhile_append_dropWhile]
    have hlast : (s.data.dropWhile pyIsSpace).reverse.getLast? = (a :: t).getLast? := by
      rw [hsuffix]
      exact List.getLast?_append_cons _ a t
    rw [List.getLast?_reverse] at hlast
    rcases hd : s.data.dropWhile pyIsSpace with _ | ⟨a1, t1⟩
    · rw [hd] at hsuffix
      simp at hsuffix
    · rw [hd] at hlast
      simp only [List.head?_cons] at hlast
      have hc' : a1 = c := Option.some_inj.mp (hlast.trans hc)
      subst hc'
      exact dropWhile_head_false pyIsSpace s.data a1 t1 hd

/-- The stripped string does not end with whitespace. -/
theorem pyStrip_getLast_not_space (s : String) :
    ∀ c, (pyStrip s).data.getLast? = some c → pyIsSpace c = false := by
  intro c hc
  simp only [pyStrip, List.getLast?_reverse] at hc
  rcases he : (s.data.dropWhile pyIsSpace).reverse.dropWhile pyIsSpace with _ | ⟨a, t⟩
  · rw [he] at hc
    simp at hc
  · rw [he] at hc
    simp only [List.head?_cons] at hc
    have hc' : a = c := Option.some_inj.mp hc
    subst hc'
    exact dropWhile_head_false pyIsSpace _ a t he

/-! ## Claim theorems -/

/-- Claim C3: on input "sudden chest pain and trouble breathing" the
red-flag matcher returns exactly the labels "Breathing trouble" and
"Chest pain/pressure", sorted ascending by label text. -/
theorem find_red_flags_chest_breathing :
    find_red_flags "sudden chest pain and trouble breathing" =
      ["Breathing trouble", "Chest pain/pressure"] := by decide

/-- Claim C8: word boundaries are respected: "breath" inside the longer
word "breathed" triggers no red-flag rule, both for the plain input
"he breathed" and for "shortness of breathed", where the phrase
"shortness of breath" occurs as a raw substring but its closing word
boundary fails. -/
theorem find_red_flags_word_boundary :
    find_red_flags "he breathed" = [] ∧
    find_red_flags "shortness of breathed" = [] := by decide

/-- Claim C1 (counterexample): on "fell and is confused" the fall-related
suggestion does not precede the confusion-related one: there are no
positions i < j holding the fall suggestion and the confusion suggestion
respectively. -/
theorem suggestions_fell_confused_order_cex :
    ¬ ∃ i j : Fin (generate_support_suggestions "fell and is confused").length,
      i < j ∧
      (generate_support_suggestions "fell and is confused").get i = fall_suggestion ∧
      (generate_support_suggestions "fell and is confused").get j = confusion_suggestion := by
  decide

/-- Claim C1 (amended): on "fell and is confused" both the fall-related
and the confusion-related suggestions are returned, in rule-declaration
order, which places the confusion rule (first in the table) before the
fall rule (third in the table). -/
theorem suggestions_fell_confused_order :
    generate_support_suggestions "fell and is confused" =
      [confusion_suggestion, fall_suggestion] := by decide

/-- Claim C2 (counterexample): with every optional field a whitespace-only
(non-empty) string and severity 5, the rendered block contains no "N/A"
at all: Python truthiness keeps whitespace-only name and relationship
as given, and strips the two free-text fields to the empty string. -/
theorem format_log_entry_whitespace_fields_cex :
    ¬ ("N/A".data <:+:
        (format_log_entry " " " " " " 5 " " "2024-01-01 10:00").data) := by decide

/-- Claim C2 (amended): with every optional field the empty string and
severity 5, the rendered block contains the literal "N/A" for the name,
the relationship, the observed text and the notes, and "5/10" for the
severity, as shown by the full rendering. -/
theorem format_log_entry_empty_fields (now : String) :
    format_log_entry "" "" "" 5 "" now =
      "## Care Log Entry (" ++ (now ++
        ")\n\n**Person:** N/A  \n**Relationship:** N/A  \n**Severity (caregiver-rated):** 5/10  \n\n### What I observed\nN/A\n\n### Extra notes\nN/A\n") := rfl

/-- Claim C4: for every input, the red-flag result has no duplicates, is
sorted ascending by label text, and contains exactly the labels of the
red-flag rules whose pattern matches the input. -/
theorem find_red_flags_sorted_nodup_complete (text : String) :
    (find_red_flags text).Nodup ∧
    List.Sorted (· ≤ ·) (find_red_flags text) ∧
    ∀ l, l ∈ find_red_flags text ↔
      ∃ p, (p, l) ∈ RED_FLAGS ∧ patternSearch p text = true := by
  unfold find_red_flags
  have hperm := List.perm_insertionSort (fun a b => strLe a b = true)
    (((RED_FLAGS.filter fun r => patternSearch r.1 text).map Prod.snd).dedup)
  refine ⟨?_, ?_, ?_⟩
  · exact hperm.nodup_iff.mpr (List.nodup_dedup _)
  · have hs := List.sorted_insertionSort (fun a b => strLe a b = true)
      (((RED_FLAGS.filter fun r => patternSearch r.1 text).map Prod.snd).dedup)
    exact hs.imp fun hab => (strLe_iff _ _).mp hab
  · intro l
    rw [hperm.mem_iff, List.mem_dedup, List.mem_map]
    constructor
    · rintro ⟨⟨p, l'⟩, hmem, rfl⟩
      rw [List.mem_filter] at hmem
      exact ⟨p, hmem.1, hmem.2⟩
    · rintro ⟨p, hmem, hmatch⟩
      exact ⟨(p, l), List.mem_filter.mpr ⟨hmem, hmatch⟩, rfl⟩

/-- Claim C5: the red-flag matcher is total, and on any input in which no
red-flag phrase occurs (case-folded, as a contiguous substring) it
returns the empty list rather than an error. -/
theorem find_red_flags_no_phrase_empty (text : String)
    (h : ∀ r ∈ RED_FLAGS, ∀ a ∈ r.1, ¬ (lowerData a <:+: lowerData text)) :
    find_red_flags text = [] := by
  have hfilter : (RED_FLAGS.filter fun r => patternSearch r.1 text) = [] := by
    rw [List.filter_eq_nil_iff]
    intro r hr hsearch
    rw [patternSearch, List.any_eq_true] at hsearch
    obtain ⟨a, ha, hs⟩ := hsearch
    exact h r hr a ha (searchAux_infixOf _ _ _ hs)
  rw [find_red_flags, hfilter]
  rfl

/-- Claim C5 (witness): the non-ASCII input "café fine niño" contains no
red-flag phrase and yields the empty list. -/
theorem find_red_flags_no_phrase_empty_witness :
    (∀ r ∈ RED_FLAGS, ∀ a ∈ r.1, ¬ (lowerData a <:+: lowerData "café fine niño")) ∧
    find_red_flags "café fine niño" = [] :=
  ⟨by decide, find_red_flags_no_phrase_empty "café fine niño" (by decide)⟩

/-- Claim C6: on any input matched by no suggestion rule the generator
returns exactly the one fallback string. -/
theorem suggestions_fallback_of_no_match (text : String)
    (h : ∀ r ∈ SUGGESTION_RULES, patternSearch r.1 text = false) :
    generate_support_suggestions text = [fallback_suggestion] := by
  have hfilter : (SUGGESTION_RULES.filter fun r => patternSearch r.1 text) = [] := by
    rw [List.filter_eq_nil_iff]
    intro r hr
    simp [h r hr]
  rw [gss_eq, hfilter]
  rfl

/-- Claim C6 (witness): "hello there" matches no suggestion rule and
yields exactly the fallback string. -/
theorem suggestions_fallback_of_no_match_witness :
    (∀ r ∈ SUGGESTION_RULES, patternSearch r.1 "hello there" = false) ∧
    generate_support_suggestions "hello there" = [fallback_suggestion] :=
  ⟨by decide, suggestions_fallback_of_no_match "hello there" (by decide)⟩

/-- Claim C7: both matchers are case-insensitive: two inputs with the
same ASCII case folding yield identical red flags and identical
suggestions. -/
theorem matcher_case_insensitive (s t : String) (h : lowerData s = lowerData t) :
    find_red_flags s = find_red_flags t ∧
    generate_support_suggestions s = generate_support_suggestions t := by
  have hf : ∀ L : List (List String × String),
      (L.filter fun r => patternSearch r.1 s) = L.filter fun r => patternSearch r.1 t := by
    intro L
    refine List.filter_congr fun r _ => ?_
    rw [patternSearch, patternSearch, h]
  constructor
  · rw [find_red_flags, find_red_flags, hf]
  · rw [gss_eq, gss_eq, hf]

/-- Claim C7 (witness): "CHEST PAIN" and "chest pain" have the same case
folding, hence identical red flags and suggestions. -/
theorem matcher_case_insensitive_witness :
    lowerData "CHEST PAIN" = lowerData "chest pain" ∧
    (find_red_flags "CHEST PAIN" = find_red_flags "chest pain" ∧
     generate_support_suggestions "CHEST PAIN" = generate_support_suggestions "chest pain") :=
  ⟨by decide, matcher_case_insensitive "CHEST PAIN" "chest pain" (by decide)⟩

/-- Claim C9: for every non-empty observed text, the formatter renders
the text stripped of leading and trailing whitespace only: the original
splits as whitespace ++ core ++ whitespace, the rendered core neither
starts nor ends with whitespace, and it appears verbatim (internal
whitespace and line breaks intact) in the observed section of the
rendered block.  The empty observed text renders as the "N/A"
placeholder instead. -/
theorem format_log_entry_observed_trimmed
    (person_name relationship concern_text : String)
    (severity : Int) (notes now : String) (h : concern_text ≠ "") :
    (∃ pre post : List Char,
      (∀ c ∈ pre, pyIsSpace c = true) ∧ (∀ c ∈ post, pyIsSpace c = true) ∧
      concern_text.data = pre ++ (pyStrip concern_text).data ++ post) ∧
    (∀ c, (pyStrip concern_text).data.head? = some c → pyIsSpace c = false) ∧
    (∀ c, (pyStrip concern_text).data.getLast? = some c → pyIsSpace c = false) ∧
    ("### What I observed\n" ++ (pyStrip concern_text ++ "\n")).data <:+:
      (format_log_entry person_name relationship concern_text severity notes now).data := by
  refine ⟨pyStrip_decomp concern_text, pyStrip_head_not_space concern_text,
    pyStrip_getLast_not_space concern_text, ?_⟩
  refine ⟨("## Care Log Entry (" ++ (now ++ (")\n\n**Person:** " ++
      ((if person_name = "" then "N/A" else person_name) ++ ("  \n**Relationship:** " ++
        ((if relationship = "" then "N/A" else relationship) ++
          ("  \n**Severity (caregiver-rated):** " ++
            (toString severity ++ "/10  \n\n")))))))).data,
    ("\n" ++ ("### Extra notes\n" ++
      ((if notes = "" then "N/A" else pyStrip notes) ++ "\n"))).data, ?_⟩
  simp only [format_log_entry, String.data_append, if_neg h, List.append_assoc]

/-- Claim C9 (witness): the observed text with surrounding blanks and an
internal newline is rendered stripped, with the internal newline kept. -/
theorem format_log_entry_observed_trimmed_witness :
    (" a\nb " : String) ≠ "" ∧
    ((∃ pre post : List Char,
      (∀ c ∈ pre, pyIsSpace c = true) ∧ (∀ c ∈ post, pyIsSpace c = true) ∧
      (" a\nb " : String).data = pre ++ (pyStrip " a\nb ").data ++ post) ∧
    (∀ c, (pyStrip " a\nb ").data.head? = some c → pyIsSpace c = false) ∧
    (∀ c, (pyStrip " a\nb ").data.getLast? = some c → pyIsSpace c = false) ∧
    ("### What I observed\n" ++ (pyStrip " a\nb " ++ "\n")).data <:+:
      (format_log_entry "x" "y" " a\nb " 5 "z" "2024-01-01 10:00").data) :=
  ⟨by decide,
   format_log_entry_observed_trimmed "x" "y" " a\nb " 5 "z" "2024-01-01 10:00" (by decide)⟩

/-- Claim C10: for every input, the suggestion list is non-empty, has at
most 7 elements (one per rule), and contains the fallback string exactly
when no suggestion rule matched. -/
theorem suggestions_length_fallback_invariant (text : String) :
    generate_support_suggestions text ≠ [] ∧
    (generate_support_suggestions text).length ≤ 7 ∧
    (fallback_suggestion ∈ generate_support_suggestions text ↔
      ∀ r ∈ SUGGESTION_RULES, patternSearch r.1 text = false) := by
  rw [gss_eq]
  by_cases hemp :
      ((SUGGESTION_RULES.filter fun r => patternSearch r.1 text).map Prod.snd) = []
  · rw [if_pos hemp]
    refine ⟨by simp, by simp, ?_⟩
    constructor
    · intro _ r hr
      rw [List.map_eq_nil_iff, List.filter_eq_nil_iff] at hemp
      simpa using hemp r hr
    · intro _
      simp
  · rw [if_neg hemp]
    refine ⟨hemp, ?_, ?_⟩
    · have h1 : ((SUGGESTION_RULES.filter fun r => patternSearch r.1 text).map Prod.snd).length
          ≤ SUGGESTION_RULES.length := by
        rw [List.length_map]
        exact List.length_filter_le _ _
      exact h1.trans (by decide)
    · constructor
      · intro hmem
        exfalso
        rw [List.mem_map] at hmem
        obtain ⟨r, hr, hsnd⟩ := hmem
        have hr' : r ∈ SUGGESTION_RULES := List.mem_of_mem_filter hr
        have hne : ∀ r ∈ SUGGESTION_RULES, r.2 ≠ fallback_suggestion := by decide
        exact hne r hr' hsnd
      · intro hall
        exfalso
        apply hemp
        rw [List.map_eq_nil_iff, List.filter_eq_nil_iff]
        intro r hr
        simp [hall r hr]

end CaregiverApp
